import Mathlib

/-!
Verification of the dual-backend record-lookup service (app.py).

The embedding models the three query operations (record lookup by id,
paginated partial search by aadhar_card, exact search by email), the
streaming pagination loop, the backend selection of stream_records_from_parts,
and the input validation of search_by_aadhar.  The SQL queries issued against
the SQLite backend are modelled from their query text together with the
native id ordering the design document assigns to the indexed store.
-/

namespace LeakApi

/-- Field values appearing in a record: JSON integers or strings. -/
inductive Value
  | vint (n : Int)
  | vstr (s : String)
deriving DecidableEq

/-- One dataset record; only the three queried fields are modelled, each possibly absent. -/
structure Record where
  id : Option Value
  aadhar_card : Option Value
  email : Option Value
deriving DecidableEq

/-- View of Except as a sum, used to transfer decidable equality. -/
def exceptToSum {ε α : Type} : Except ε α → Sum ε α
  | Except.error e => Sum.inl e
  | Except.ok a => Sum.inr a

instance {ε α : Type} [DecidableEq ε] [DecidableEq α] : DecidableEq (Except ε α) := fun a b =>
  decidable_of_iff (exceptToSum a = exceptToSum b)
    (by cases a <;> cases b <;> simp [exceptToSum])

/-- Python str() of a field value. -/
def pyStr : Value → String
  | Value.vint n => toString n
  | Value.vstr s => s

/-- Python str(rec.get(field, "")): stringify the field value, empty when absent. -/
def pyGetStr : Option Value → String
  | none => ""
  | some v => pyStr v

/-- Accumulator for a run of decimal digits; none when a non-digit appears. -/
def digitsAcc : Nat → List Char → Option Nat
  | acc, [] => some acc
  | acc, c :: cs => if c.isDigit then digitsAcc (acc * 10 + (c.toNat - 48)) cs else none

/-- Value of a nonempty run of decimal digits. -/
def digitsVal : List Char → Option Nat
  | [] => none
  | l => digitsAcc 0 l

/-- Python int(s) on a string: optional sign followed by a nonempty digit run
(whitespace or underscore separators are not modelled).  none models ValueError. -/
def pyParseInt (s : String) : Option Int :=
  match s.data with
  | '-' :: rest => (digitsVal rest).map (fun n => -(n : Int))
  | '+' :: rest => (digitsVal rest).map (fun n => (n : Int))
  | l => (digitsVal l).map (fun n => (n : Int))

/-- Python int(v) on a field value; none models ValueError. -/
def pyInt : Value → Option Int
  | Value.vint n => some n
  | Value.vstr s => pyParseInt s

/-- int(r.get("id", -1)): the id coercion performed by get_record. -/
def pyGetId (r : Record) : Option Int :=
  match r.id with
  | none => some (-1)
  | some v => pyInt v

/-- Charwise ASCII lowercasing, modelling str.lower() on ASCII data. -/
def pyLower (s : String) : String := ⟨s.data.map Char.toLower⟩

/-- aadhar_query.isdigit(): nonempty and all decimal digits. -/
def pyIsDigit (s : String) : Bool := !s.data.isEmpty && s.data.all Char.isDigit

/-- The needle occurs at the head of the haystack. -/
def leadMatch : List Char → List Char → Bool
  | [], _ => true
  | _ :: _, [] => false
  | a :: as, b :: bs => a == b && leadMatch as bs

/-- Python substring containment: needle occurs somewhere in the haystack. -/
def hasSub : List Char → List Char → Bool
  | n, [] => leadMatch n []
  | n, b :: bs => leadMatch n (b :: bs) || hasSub n bs

/-- aadhar_query in str(rec.get("aadhar_card", "")). -/
def aadharMatches (q : String) (r : Record) : Bool :=
  hasSub q.data (pyGetStr r.aadhar_card).data

/-- str(rec.get("email", "")).lower() == email.lower(). -/
def emailMatches (v : String) (r : Record) : Bool :=
  pyLower (pyGetStr r.email) == pyLower v

/-- Conditional append of the current matching record to the accumulator: models the
window test offset <= idx < offset + limit guarding acc.append. -/
def stepAcc (limit offset idx : Nat) (acc : List Record) (rec : Record) : List Record :=
  if offset ≤ idx ∧ idx < offset + limit then acc ++ [rec] else acc

/-- Count one more record as consumed from the stream. -/
def bump (p : List Record × Nat) : List Record × Nat := (p.1, p.2 + 1)

/-- The streaming pagination loop of search_by_aadhar: the first component is the
returned accumulator, the second the number of records consumed from (and hence
the number of predicate evaluations performed on) the stream. -/
def searchGo (q : String) (limit offset : Nat) :
    List Record → Nat → List Record → List Record × Nat
  | [], _, acc => (acc, 0)
  | rec :: rest, idx, acc =>
    if aadharMatches q rec then
      let m2 := stepAcc limit offset idx acc rec
      if limit ≤ m2.length then (m2, 1)
      else bump (searchGo q limit offset rest (idx + 1) m2)
    else bump (searchGo q limit offset rest idx acc)

/-- search_by_aadhar's scan over the streamed records (idx = 0, acc = []). -/
def searchScan (q : String) (limit offset : Nat) (recs : List Record) : List Record × Nat :=
  searchGo q limit offset recs 0 []

/-- The json-parts branch of get_record: return the first record whose coerced id
equals record_id; Except.error models a ValueError escaping from int(). -/
def get_record (record_id : Int) : List Record → Except Unit (Option Record)
  | [] => Except.ok none
  | r :: rs =>
    match pyGetId r with
    | none => Except.error ()
    | some n => if n = record_id then Except.ok (some r) else get_record record_id rs

/-- The json-parts branch of search_by_email: first record with case-folded equal email. -/
def searchEmailStream (v : String) (recs : List Record) : Option Record :=
  recs.find? (emailMatches v)

/-- One partition file fake_leak_part_*.json that can be opened: its filename and
its json.load outcome.  Except.error models a parse failure, the only failure the
loop catches (and skips); a failure of open() itself is not caught and is
modelled separately by PartFile.unopenable and partsScan. -/
structure Part where
  name : String
  content : Except Unit (List Record)

/-- The storage artifacts visible at startup: the SQLite file with its leaks table
(none when fake_leak.db is absent), the parse outcome of fake_leak1.json (none when
absent), and the files matching fake_leak_part_*.json in arbitrary glob order
(each openable; an unopenable partition aborts the scan, see partsScan). -/
structure Artifacts where
  db : Option (List Record)
  singleJson : Option (Except Unit (List Record))
  parts : List Part

/-- The per-file loop of stream_records_from_parts over partitions that open:
a partition whose json.load fails is caught and skipped, and the records of the
parsing partitions are yielded in order. -/
def partsRecords : List Part → List Record
  | [] => []
  | p :: ps =>
    (match p.content with
     | Except.ok rs => rs
     | Except.error _ => []) ++ partsRecords ps

/-- A partition file as the scan loop encounters it: either open() succeeds and
the file carries its parse outcome, or open() itself raises.  The open() call
sits outside the try block, so its exception is not caught. -/
inductive PartFile
  | readable (p : Part)
  | unopenable (nm : String)

/-- The per-file loop of stream_records_from_parts with the uncaught open()
failure path: the first component is the list of records the generator yields
before terminating, the second is true when the loop terminates by an uncaught
open() exception (aborting the scan) rather than by exhausting the files.
A parse failure is caught and skipped; an open failure yields nothing further. -/
def partsScan : List PartFile → List Record × Bool
  | [] => ([], false)
  | PartFile.unopenable _ :: _ => ([], true)
  | PartFile.readable p :: rest =>
    match p.content with
    | Except.error _ => partsScan rest
    | Except.ok rs => ((rs ++ (partsScan rest).1, (partsScan rest).2) : List Record × Bool)

/-- A sample record used in the concrete partition-failure scenarios. -/
def sampleRec : Record :=
  { id := some (Value.vint 1), aadhar_card := some (Value.vstr "5"), email := none }

/-- A partition that opens and parses to the single sample record. -/
def goodPart : Part := { name := "fake_leak_part_1.json", content := Except.ok [sampleRec] }

/-- A partition that opens and parses to the empty array. -/
def emptyPart : Part := { name := "fake_leak_part_0.json", content := Except.ok [] }

/-- sorted(glob.glob(PART_GLOB)): partition files ordered lexicographically by name. -/
def sortParts (ps : List Part) : List Part :=
  List.insertionSort (fun a b => a.name ≤ b.name) ps

/-- stream_records_from_parts: the single full-dataset file when it parses as an
array, else the lexicographically sorted partition files with those whose parse
fails skipped (an absent or malformed single file both fall through to the
parts). -/
def stream_records_from_parts (arts : Artifacts) : List Record :=
  match arts.singleJson with
  | some (Except.ok data) => data
  | _ => partsRecords (sortParts arts.parts)

/-- The backend every query runs against for the process lifetime. -/
inductive Backend
  | indexed (tbl : List Record)
  | stream (recs : List Record)

/-- USE_DB together with the branch structure of every route: the SQLite table when
fake_leak.db exists, else the streamed json records. -/
def selectBackend (arts : Artifacts) : Backend :=
  match arts.db with
  | some tbl => Backend.indexed tbl
  | none => Backend.stream (stream_records_from_parts arts)

/-- The id column of a DB row (always an integer for rows of the leaks table). -/
def recIdInt (r : Record) : Int :=
  match r.id with
  | some (Value.vint n) => n
  | _ => -1

/-- Ascending order on the id column, the indexed store's native ordering. -/
def idLe (a b : Record) : Prop := recIdInt a ≤ recIdInt b

instance : DecidableRel idLe := fun a b =>
  inferInstanceAs (Decidable (recIdInt a ≤ recIdInt b))

/-- SELECT * FROM leaks WHERE aadhar_card LIKE %q% ORDER BY id LIMIT limit OFFSET
offset: modelled from the SQL text as substring filter, id-ascending sort, and
the pagination window. -/
def dbSearchByAadhar (q : String) (limit offset : Nat) (tbl : List Record) : List Record :=
  ((List.insertionSort idLe (tbl.filter (aadharMatches q))).drop offset).take limit

/-- SELECT * FROM leaks WHERE id = x with fetchone, read in the indexed store's
native id ordering per the design document: first row with id column x. -/
def dbGetById (x : Int) (tbl : List Record) : Option Record :=
  (List.insertionSort idLe (tbl.filter (fun r => decide (recIdInt r = x)))).head?

/-- SELECT * FROM leaks WHERE LOWER(email) = LOWER(v) with fetchone, read in the
indexed store's native id ordering per the design document. -/
def dbGetByEmail (v : String) (tbl : List Record) : Option Record :=
  (List.insertionSort idLe (tbl.filter (emailMatches v))).head?

/-- The responses a route can produce, up to serialization. -/
inductive Resp
  | badRequest (msg : String)
  | notFound (msg : String)
  | okList (recs : List Record)
deriving DecidableEq

/-- int(request.args.get("limit", 10)): the default 10 when absent, else parsed. -/
def parsedLimit : Option String → Option Int
  | none => some 10
  | some s => pyParseInt s

/-- int(request.args.get("offset", 0)): the default 0 when absent, else parsed. -/
def parsedOffset : Option String → Option Int
  | none => some 0
  | some s => pyParseInt s

/-- The search_by_aadhar route: digits-only check, limit and offset parsing with
defaults, range checks, then the active backend's query. -/
def search_by_aadhar (q : String) (limitP offsetP : Option String) (b : Backend) : Resp :=
  if pyIsDigit q = false then Resp.badRequest "Aadhaar query must be digits only"
  else
    match parsedLimit limitP, parsedOffset offsetP with
    | some limit, some offset =>
      if limit < 1 ∨ 1000 < limit then Resp.badRequest "limit must be between 1 and 1000"
      else if offset < 0 then Resp.badRequest "offset must be >= 0"
      else
        match b with
        | Backend.indexed tbl =>
          let rows := dbSearchByAadhar q limit.toNat offset.toNat tbl
          if rows.isEmpty then Resp.notFound "No records found for given Aadhaar"
          else Resp.okList rows
        | Backend.stream recs =>
          let ms := (searchScan q limit.toNat offset.toNat recs).1
          if ms.isEmpty then Resp.notFound "No records found for given Aadhaar"
          else Resp.okList ms
    | _, _ => Resp.badRequest "limit and offset must be integers"

/-! ### Helper lemmas -/

@[simp] lemma bump_fst (p : List Record × Nat) : (bump p).1 = p.1 := rfl

@[simp] lemma bump_snd (p : List Record × Nat) : (bump p).2 = p.2 + 1 := rfl

/-- Loop invariant of the streaming pagination scan.  With idx counting the matches
already seen and acc holding the part of the window already collected, the loop
returns exactly the window of the remaining matches, consumes a prefix of the
stream, stops strictly before the window is full at no point, stops early only
with a full accumulator, and once the accumulator is full ignores every record
past the consumed prefix. -/
lemma searchGo_master (q : String) (limit offset : Nat) (l : List Record) :
    ∀ (idx : Nat) (acc : List Record),
      (idx < offset → acc = []) →
      (offset ≤ idx → acc.length + offset = idx) →
      acc.length < limit →
      (searchGo q limit offset l idx acc).1
          = acc ++ (((l.filter (aadharMatches q)).drop (offset - idx)).take (limit - acc.length))
      ∧ (searchGo q limit offset l idx acc).2 ≤ l.length
      ∧ (∀ m, m < (searchGo q limit offset l idx acc).2 →
            idx + ((l.take m).filter (aadharMatches q)).length < offset + limit)
      ∧ ((searchGo q limit offset l idx acc).2 < l.length →
            (searchGo q limit offset l idx acc).1.length = limit)
      ∧ ((searchGo q limit offset l idx acc).1.length = limit →
          ∀ extra,
            searchGo q limit offset (l.take (searchGo q limit offset l idx acc).2 ++ extra) idx acc
              = searchGo q limit offset l idx acc) := by
  induction l with
  | nil =>
    intro idx acc h1 h2 h3
    refine ⟨by simp [searchGo], by simp [searchGo], ?_, ?_, ?_⟩
    · intro m hm
      simp [searchGo] at hm
    · intro h
      simp [searchGo] at h
    · intro h extra
      simp [searchGo] at h
      exact absurd h (by omega)
  | cons r rs ih =>
    intro idx acc h1 h2 h3
    have hidxlt : idx < offset + limit := by
      by_cases hw : offset ≤ idx
      · have := h2 hw; omega
      · omega
    by_cases hm : aadharMatches q r = true
    · by_cases hwin : offset ≤ idx
      · -- the current match lands in or fills the window
        have hidx : acc.length + offset = idx := h2 hwin
        have hstep : stepAcc limit offset idx acc r = acc ++ [r] := by
          simp [stepAcc, hwin, hidxlt]
        by_cases hbrk : limit ≤ acc.length + 1
        · -- the append fills the accumulator: break
          have hgo : searchGo q limit offset (r :: rs) idx acc = (acc ++ [r], 1) := by
            simp [searchGo, hm, hstep, hbrk]
          have hfull : (acc ++ [r]).length = limit := by
            simp; omega
          refine ⟨?_, ?_, ?_, ?_, ?_⟩
          · rw [hgo]
            have e0 : offset - idx = 0 := by omega
            have e1 : limit - acc.length = 1 := by omega
            simp [List.filter_cons, hm, e0, e1]
          · rw [hgo]; simp
          · intro m hmlt
            rw [hgo] at hmlt
            have hm0 : m = 0 := by omega
            subst hm0
            simp only [List.take_zero, List.filter_nil, List.length_nil, Nat.add_zero]
            omega
          · intro _
            rw [hgo]; exact hfull
          · intro _ extra
            rw [hgo]
            simp [searchGo, hm, hstep, hbrk]
        · -- append without filling the accumulator: recurse with the larger accumulator
          obtain ⟨ih1, ih2, ih3, ih4, ih5⟩ :=
            ih (idx + 1) (acc ++ [r])
              (fun hc => absurd hc (by omega))
              (by intro _; simp; omega)
              (by simp; omega)
          have hgo : searchGo q limit offset (r :: rs) idx acc =
              bump (searchGo q limit offset rs (idx + 1) (acc ++ [r])) := by
            simp [searchGo, hm, hstep, hbrk]
          refine ⟨?_, ?_, ?_, ?_, ?_⟩
          · rw [hgo, bump_fst, ih1]
            have e0 : offset - idx = 0 := by omega
            have e1 : offset - (idx + 1) = 0 := by omega
            have e2 : limit - acc.length = (limit - (acc.length + 1)) + 1 := by omega
            simp [List.filter_cons, hm, e0, e1, e2, List.take_succ_cons]
          · rw [hgo, bump_snd]; simp only [List.length_cons]; omega
          · intro m hmlt
            rw [hgo, bump_snd] at hmlt
            cases m with
            | zero =>
              simp only [List.take_zero, List.filter_nil, List.length_nil, Nat.add_zero]
              omega
            | succ m' =>
              have hx := ih3 m' (by omega)
              simp [List.take_succ_cons, List.filter_cons, hm] at hx ⊢
              omega
          · intro hlt2
            rw [hgo, bump_snd] at hlt2
            rw [hgo, bump_fst]
            simp only [List.length_cons] at hlt2
            exact ih4 (by omega)
          · intro hlen extra
            rw [hgo, bump_fst] at hlen
            rw [hgo, bump_snd, List.take_succ_cons, List.cons_append]
            have hnew : searchGo q limit offset
                (r :: (rs.take (searchGo q limit offset rs (idx + 1) (acc ++ [r])).2 ++ extra)) idx acc =
                bump (searchGo q limit offset
                  (rs.take (searchGo q limit offset rs (idx + 1) (acc ++ [r])).2 ++ extra)
                  (idx + 1) (acc ++ [r])) := by
              simp [searchGo, hm, hstep, hbrk]
            rw [hnew, ih5 hlen extra]
      · -- the current match precedes the window: skipped, counter advances
        have hlt : idx < offset := by omega
        have hacc : acc = [] := h1 hlt
        subst hacc
        have h3' : 0 < limit := by simpa using h3
        have hstep : stepAcc limit offset idx [] r = [] := by
          simp [stepAcc]
          intro hc; omega
        have hbrk0 : ¬ limit = 0 := by omega
        obtain ⟨ih1, ih2, ih3, ih4, ih5⟩ :=
          ih (idx + 1) [] (fun _ => rfl) (by intro h; simp; omega) h3
        have hgo : searchGo q limit offset (r :: rs) idx [] =
            bump (searchGo q limit offset rs (idx + 1) []) := by
          simp [searchGo, hm, hstep, hbrk0]
        refine ⟨?_, ?_, ?_, ?_, ?_⟩
        · rw [hgo, bump_fst, ih1]
          have e0 : offset - idx = (offset - (idx + 1)) + 1 := by omega
          simp [List.filter_cons, hm, e0]
        · rw [hgo, bump_snd]; simp only [List.length_cons]; omega
        · intro m hmlt
          rw [hgo, bump_snd] at hmlt
          cases m with
          | zero =>
            simp only [List.take_zero, List.filter_nil, List.length_nil, Nat.add_zero]
            omega
          | succ m' =>
            have hx := ih3 m' (by omega)
            simp [List.take_succ_cons, List.filter_cons, hm] at hx ⊢
            omega
        · intro hlt2
          rw [hgo, bump_snd] at hlt2
          rw [hgo, bump_fst]
          simp only [List.length_cons] at hlt2
          exact ih4 (by omega)
        · intro hlen extra
          rw [hgo, bump_fst] at hlen
          rw [hgo, bump_snd, List.take_succ_cons, List.cons_append]
          have hnew : searchGo q limit offset
              (r :: (rs.take (searchGo q limit offset rs (idx + 1) []).2 ++ extra)) idx [] =
              bump (searchGo q limit offset
                (rs.take (searchGo q limit offset rs (idx + 1) []).2 ++ extra) (idx + 1) []) := by
            simp [searchGo, hm, hstep, hbrk0]
          rw [hnew, ih5 hlen extra]
    · -- no match: counter and accumulator unchanged
      obtain ⟨ih1, ih2, ih3, ih4, ih5⟩ := ih idx acc h1 h2 h3
      have hgo : searchGo q limit offset (r :: rs) idx acc =
          bump (searchGo q limit offset rs idx acc) := by
        simp [searchGo, hm]
      refine ⟨?_, ?_, ?_, ?_, ?_⟩
      · rw [hgo, bump_fst, ih1]
        simp [List.filter_cons, hm]
      · rw [hgo, bump_snd]; simp only [List.length_cons]; omega
      · intro m hmlt
        rw [hgo, bump_snd] at hmlt
        cases m with
        | zero =>
          simp only [List.take_zero, List.filter_nil, List.length_nil, Nat.add_zero]
          omega
        | succ m' =>
          have hx := ih3 m' (by omega)
          simp [List.take_succ_cons, List.filter_cons, hm] at hx ⊢
          omega
      · intro hlt2
        rw [hgo, bump_snd] at hlt2
        rw [hgo, bump_fst]
        simp only [List.length_cons] at hlt2
        exact ih4 (by omega)
      · intro hlen extra
        rw [hgo, bump_fst] at hlen
        rw [hgo, bump_snd, List.take_succ_cons, List.cons_append]
        have hnew : searchGo q limit offset
            (r :: (rs.take (searchGo q limit offset rs idx acc).2 ++ extra)) idx acc =
            bump (searchGo q limit offset
              (rs.take (searchGo q limit offset rs idx acc).2 ++ extra) idx acc) := by
          simp [searchGo, hm]
        rw [hnew, ih5 hlen extra]

/-! ### Claim C1 and C2 -/

/-- C1: for every valid limit in [1,1000] and offset >= 0, over any dataset of
record batches the batch-stream SearchByFieldPartial returns at most limit
records, and the records returned are exactly the matches at positions
[offset, offset+limit) among all matches in canonical scan order (batch order,
then in-batch order, i.e. the order of the concatenation of the batches). -/
theorem aadhar_scan_paginates (q : String) (limit offset : Nat)
    (batches : List (List Record)) (hlo : 1 ≤ limit) (hhi : limit ≤ 1000) :
    (searchScan q limit offset batches.flatten).1
        = ((batches.flatten.filter (aadharMatches q)).drop offset).take limit
    ∧ (searchScan q limit offset batches.flatten).1.length ≤ limit := by
  obtain ⟨m1, -, -, -, -⟩ :=
    searchGo_master q limit offset batches.flatten 0 []
      (fun _ => rfl) (by intro h; simp; omega) (by simp; omega)
  have e : (searchScan q limit offset batches.flatten).1
      = ((batches.flatten.filter (aadharMatches q)).drop offset).take limit := by
    simpa [searchScan] using m1
  refine ⟨e, ?_⟩
  rw [e, List.length_take]
  omega

/-- Witness for C1 at a concrete batch list. -/
theorem aadhar_scan_paginates_witness :
    (searchScan "5" 1 0
        ([[{ id := some (Value.vint 1), aadhar_card := some (Value.vstr "15"), email := none }]]
          : List (List Record)).flatten).1
        = ((([[{ id := some (Value.vint 1), aadhar_card := some (Value.vstr "15"), email := none }]]
          : List (List Record)).flatten.filter (aadharMatches "5")).drop 0).take 1
    ∧ (searchScan "5" 1 0
        ([[{ id := some (Value.vint 1), aadhar_card := some (Value.vstr "15"), email := none }]]
          : List (List Record)).flatten).1.length ≤ 1 :=
  aadhar_scan_paginates "5" 1 0 _ (by decide) (by decide)

/-- C2: the batch-stream scan consumes a prefix of the record source and terminates
as soon as its accumulator reaches limit entries or the source is exhausted:
the consumed count never exceeds the source length, at every strictly shorter
prefix the accumulator was not yet full (fewer than offset + limit matches seen),
an early stop only happens with a full accumulator, and once the accumulator is
full every record past the consumed prefix is ignored: neither produced nor
tested, as replacing the unconsumed suffix by anything changes nothing. -/
theorem aadhar_scan_early_stop (q : String) (limit offset : Nat)
    (batches : List (List Record)) (hlo : 1 ≤ limit) :
    (searchScan q limit offset batches.flatten).2 ≤ batches.flatten.length
    ∧ (∀ m, m < (searchScan q limit offset batches.flatten).2 →
        ((batches.flatten.take m).filter (aadharMatches q)).length < offset + limit)
    ∧ ((searchScan q limit offset batches.flatten).2 < batches.flatten.length →
        (searchScan q limit offset batches.flatten).1.length = limit)
    ∧ ((searchScan q limit offset batches.flatten).1.length = limit →
        ∀ extra,
          searchScan q limit offset
              (batches.flatten.take (searchScan q limit offset batches.flatten).2 ++ extra)
            = searchScan q limit offset batches.flatten) := by
  obtain ⟨-, m2, m3, m4, m5⟩ :=
    searchGo_master q limit offset batches.flatten 0 []
      (fun _ => rfl) (by intro h; simp; omega) (by simp; omega)
  refine ⟨m2, ?_, m4, m5⟩
  intro m hm
  have := m3 m hm
  simpa using this

/-- Witness for C2 at a concrete batch list. -/
theorem aadhar_scan_early_stop_witness :
    (searchScan "5" 1 0
        ([[{ id := some (Value.vint 1), aadhar_card := some (Value.vstr "15"), email := none }]]
          : List (List Record)).flatten).2
      ≤ ([[{ id := some (Value.vint 1), aadhar_card := some (Value.vstr "15"), email := none }]]
          : List (List Record)).flatten.length
    ∧ (∀ m, m < (searchScan "5" 1 0
        ([[{ id := some (Value.vint 1), aadhar_card := some (Value.vstr "15"), email := none }]]
          : List (List Record)).flatten).2 →
        ((([[{ id := some (Value.vint 1), aadhar_card := some (Value.vstr "15"), email := none }]]
          : List (List Record)).flatten.take m).filter (aadharMatches "5")).length < 0 + 1)
    ∧ ((searchScan "5" 1 0
        ([[{ id := some (Value.vint 1), aadhar_card := some (Value.vstr "15"), email := none }]]
          : List (List Record)).flatten).2
          < ([[{ id := some (Value.vint 1), aadhar_card := some (Value.vstr "15"), email := none }]]
          : List (List Record)).flatten.length →
        (searchScan "5" 1 0
        ([[{ id := some (Value.vint 1), aadhar_card := some (Value.vstr "15"), email := none }]]
          : List (List Record)).flatten).1.length = 1)
    ∧ ((searchScan "5" 1 0
        ([[{ id := some (Value.vint 1), aadhar_card := some (Value.vstr "15"), email := none }]]
          : List (List Record)).flatten).1.length = 1 →
        ∀ extra,
          searchScan "5" 1 0
              (([[{ id := some (Value.vint 1), aadhar_card := some (Value.vstr "15"), email := none }]]
          : List (List Record)).flatten.take (searchScan "5" 1 0
              ([[{ id := some (Value.vint 1), aadhar_card := some (Value.vstr "15"), email := none }]]
          : List (List Record)).flatten).2 ++ extra)
            = searchScan "5" 1 0
              ([[{ id := some (Value.vint 1), aadhar_card := some (Value.vstr "15"), email := none }]]
          : List (List Record)).flatten) :=
  aadhar_scan_early_stop "5" 1 0 _ (by decide)

/-! ### Claims C4, C9, C10 -/

/-- The record's id field is present and holds an integer. -/
def isIntId (r : Record) : Bool :=
  match r.id with
  | some (Value.vint _) => true
  | _ => false

/-- Over records whose id fields are integers, get_record is find? on id equality. -/
lemma get_record_eq_find (x : Int) (l : List Record)
    (hwf : ∀ r ∈ l, isIntId r = true) :
    get_record x l
      = Except.ok (l.find? (fun r => decide (r.id = some (Value.vint x)))) := by
  induction l with
  | nil => rfl
  | cons r rs ihl =>
    have hr := hwf r (by simp)
    match hid : r.id with
    | some (Value.vint n) =>
      have hpg : pyGetId r = some n := by simp [pyGetId, hid, pyInt]
      by_cases hx : n = x
      · subst hx
        simp [get_record, hpg, List.find?, hid]
      · have hne : ¬ (r.id = some (Value.vint x)) := by
          rw [hid]; intro hc; exact hx (by injection hc with h; injection h)
        have := ihl (fun r' hr' => hwf r' (by simp [hr']))
        simp [get_record, hpg, hx, List.find?, hne, this]
    | none => simp [isIntId, hid] at hr
    | some (Value.vstr s) => simp [isIntId, hid] at hr

/-- C4: GetById(x) returns a record iff some record's id field equals x, and when a
match exists the returned record is the first one in canonical scan order whose id
equals x (find? semantics); otherwise it signals not-found (ok none).  Stated over
datasets whose id fields are integers, as the data model requires. -/
theorem get_record_first_match (x : Int) (l : List Record)
    (hwf : ∀ r ∈ l, isIntId r = true) :
    get_record x l
      = Except.ok (l.find? (fun r => decide (r.id = some (Value.vint x))))
    ∧ ((l.find? (fun r => decide (r.id = some (Value.vint x)))).isSome
        ↔ ∃ r ∈ l, r.id = some (Value.vint x)) := by
  refine ⟨get_record_eq_find x l hwf, ?_⟩
  rw [List.find?_isSome]
  constructor
  · rintro ⟨r, hm, hp⟩
    exact ⟨r, hm, of_decide_eq_true hp⟩
  · rintro ⟨r, hm, hp⟩
    exact ⟨r, hm, decide_eq_true hp⟩

/-- Witness for C4 at a concrete record list. -/
theorem get_record_first_match_witness :
    get_record 1 [({ id := some (Value.vint 1), aadhar_card := none, email := none } : Record)]
      = Except.ok ([({ id := some (Value.vint 1), aadhar_card := none, email := none } : Record)].find?
          (fun r => decide (r.id = some (Value.vint 1))))
    ∧ (([({ id := some (Value.vint 1), aadhar_card := none, email := none } : Record)].find?
          (fun r => decide (r.id = some (Value.vint 1)))).isSome
        ↔ ∃ r ∈ [({ id := some (Value.vint 1), aadhar_card := none, email := none } : Record)],
            r.id = some (Value.vint 1)) :=
  get_record_first_match 1 _ (by decide)

/-- C9 counterexample: a record whose id field holds a non-numeric string makes the
GetById scan raise (int("x") raises ValueError), so the scan does not stay
exception-free for arbitrary field values. -/
theorem get_record_raises_example :
    get_record 5 [({ id := some (Value.vstr "x"), aadhar_card := none, email := none } : Record)]
      = Except.error () := by decide

/-- C9 amended: the aadhar and email scans are total, and the GetById scan raises
no exception provided every record's id value is int-coercible; the coercion
int(r.get("id", -1)) on a non-numeric string id is the one exception source. -/
theorem get_record_no_raise_of_coercible_ids (x : Int) (l : List Record)
    (h : ∀ r ∈ l, (pyGetId r).isSome = true) :
    ∃ o, get_record x l = Except.ok o := by
  induction l with
  | nil => exact ⟨none, rfl⟩
  | cons r rs ihl =>
    have hr := h r (by simp)
    cases hid : pyGetId r with
    | none => rw [hid] at hr; simp at hr
    | some n =>
      by_cases hx : n = x
      · exact ⟨some r, by simp [get_record, hid, hx]⟩
      · obtain ⟨o, ho⟩ := ihl (fun r' hr' => h r' (by simp [hr']))
        exact ⟨o, by simp [get_record, hid, hx, ho]⟩

/-- Witness for the amended C9 at a concrete record list. -/
theorem get_record_no_raise_witness :
    ∃ o, get_record 1
        [({ id := some (Value.vint 1), aadhar_card := none, email := none } : Record)]
      = Except.ok o :=
  get_record_no_raise_of_coercible_ids 1 _ (by decide)

/-- A record in stepAcc's output was already accumulated or is the appended one. -/
lemma mem_stepAcc {limit offset idx : Nat} {acc : List Record} {r0 r : Record}
    (h : r ∈ stepAcc limit offset idx acc r0) : r ∈ acc ∨ r = r0 := by
  unfold stepAcc at h
  by_cases hc : offset ≤ idx ∧ idx < offset + limit
  · rw [if_pos hc] at h
    simpa using h
  · rw [if_neg hc] at h
    exact Or.inl h

/-- Every record in the scan's accumulator was there initially or satisfies the
aadhar predicate. -/
lemma mem_searchGo (q : String) (limit offset : Nat) (l : List Record) :
    ∀ (idx : Nat) (acc : List Record) (r : Record),
      r ∈ (searchGo q limit offset l idx acc).1 →
      r ∈ acc ∨ aadharMatches q r = true := by
  induction l with
  | nil =>
    intro idx acc r h
    simp [searchGo] at h
    exact Or.inl h
  | cons r0 rs ih =>
    intro idx acc r h
    by_cases hm : aadharMatches q r0 = true
    · by_cases hbrk : limit ≤ (stepAcc limit offset idx acc r0).length
      · have hgo : searchGo q limit offset (r0 :: rs) idx acc
            = (stepAcc limit offset idx acc r0, 1) := by
          simp [searchGo, hm, hbrk]
        rw [hgo] at h
        rcases mem_stepAcc h with hin | hr0
        · exact Or.inl hin
        · exact Or.inr (hr0 ▸ hm)
      · have hgo : searchGo q limit offset (r0 :: rs) idx acc
            = bump (searchGo q limit offset rs (idx + 1) (stepAcc limit offset idx acc r0)) := by
          simp [searchGo, hm, hbrk]
        rw [hgo, bump_fst] at h
        rcases ih (idx + 1) (stepAcc limit offset idx acc r0) r h with hin | hmr
        · rcases mem_stepAcc hin with hin' | hr0
          · exact Or.inl hin'
          · exact Or.inr (hr0 ▸ hm)
        · exact Or.inr hmr
    · have hgo : searchGo q limit offset (r0 :: rs) idx acc
          = bump (searchGo q limit offset rs idx acc) := by
        simp [searchGo, hm]
      rw [hgo, bump_fst] at h
      exact ih idx acc r h

/-- A string whose charwise lowercasing is empty is empty. -/
lemma pyLower_eq_empty {v : String} (h : pyLower v = "") : v = "" := by
  have hd : v.data.map Char.toLower = [] := congrArg String.data h
  have : v.data = [] := List.map_eq_nil_iff.mp hd
  cases v
  simp at this
  rw [this]

/-- A nonempty needle never occurs in the empty haystack. -/
lemma hasSub_nil_false {q : String} (h : q ≠ "") : hasSub q.data [] = false := by
  match hq : q.data with
  | [] =>
    exact absurd (by cases q; simp at hq; rw [hq]) h
  | c :: cs => rfl

/-- C10: on the batch-stream backend a record lacking the queried field is never
returned: a missing id is coerced to -1 and never equals a non-negative route id,
a missing aadhar_card stringifies to "" which contains no nonempty query, and a
missing email stringifies to "" which never case-folds equal to a nonempty value. -/
theorem missing_field_never_matches :
    (∀ (x : Nat) (l : List Record) (r : Record),
        get_record (x : Int) l = Except.ok (some r) → r.id ≠ none)
    ∧ (∀ (q : String) (limit offset : Nat) (l : List Record) (r : Record),
        q ≠ "" → r ∈ (searchScan q limit offset l).1 → r.aadhar_card ≠ none)
    ∧ (∀ (v : String) (l : List Record) (r : Record),
        v ≠ "" → searchEmailStream v l = some r → r.email ≠ none) := by
  refine ⟨?_, ?_, ?_⟩
  · intro x l
    induction l with
    | nil => intro r h; simp [get_record] at h
    | cons r0 rs ihl =>
      intro r h
      cases hid : pyGetId r0 with
      | none => simp [get_record, hid] at h
      | some n =>
        by_cases hx : n = (x : Int)
        · simp [get_record, hid, hx] at h
          intro hnone
          rw [← h] at hnone
          rw [pyGetId, hnone] at hid
          injection hid with hn
          omega
        · simp [get_record, hid, hx] at h
          exact ihl r h
  · intro q limit offset l r hq hmem
    rcases mem_searchGo q limit offset l 0 [] r (by simpa [searchScan] using hmem) with hin | hm
    · simp at hin
    · intro hnone
      rw [aadharMatches, hnone] at hm
      rw [show (pyGetStr none).data = [] from rfl] at hm
      rw [hasSub_nil_false hq] at hm
      exact Bool.false_ne_true hm
  · intro v l r hv hfind
    have hp := List.find?_some hfind
    rw [emailMatches] at hp
    intro hnone
    rw [hnone] at hp
    have : pyLower (pyGetStr none) = pyLower v := by
      exact eq_of_beq hp
    have hv' : pyLower v = "" := by
      rw [← this]; rfl
    exact hv (pyLower_eq_empty hv')

/-- Witness for C10 at a concrete record and query. -/
theorem missing_field_never_matches_witness :
    ({ id := none, aadhar_card := none, email := some (Value.vstr "a") } : Record).email ≠ none :=
  missing_field_never_matches.2.2 "a"
    [({ id := none, aadhar_card := none, email := some (Value.vstr "a") } : Record)]
    _ (by decide) (by decide)

/-! ### Claims C5, C7 -/

/-- C7 counterexample: a partition file that fails to open is not skipped.  The
open() call is outside the try block, so the exception aborts the scan: nothing
is yielded, the scan raises, and the outcome differs from the one where the
corrupted partition were an empty one (in which the later partition's record is
yielded), so records of other valid partitions are not found on that request. -/
theorem unopenable_part_not_skipped :
    (partsScan [PartFile.unopenable "fake_leak_part_0.json", PartFile.readable goodPart]).1 = []
    ∧ (partsScan [PartFile.unopenable "fake_leak_part_0.json", PartFile.readable goodPart]).2
        = true
    ∧ partsScan [PartFile.unopenable "fake_leak_part_0.json", PartFile.readable goodPart]
      ≠ partsScan [PartFile.readable emptyPart, PartFile.readable goodPart] := by
  decide

/-- C7 amended: a partition that opens but fails to parse is skipped and the scan
proceeds over the remaining batches exactly as if that partition were empty, with
every query unchanged; a partition that fails to open is not skipped: the scan
yields the records of the preceding partitions and then aborts with the uncaught
exception, reaching no later partition.  When every partition opens, the scan is
the skipping loop partsRecords and never raises. -/
theorem part_failure_semantics :
    (∀ (ps1 ps2 : List PartFile) (nm : String),
        partsScan (ps1 ++ PartFile.readable { name := nm, content := Except.error () } :: ps2)
          = partsScan (ps1 ++ PartFile.readable { name := nm, content := Except.ok [] } :: ps2))
    ∧ (∀ (ps1 ps2 : List PartFile) (nm : String) (x : Int) (q v : String) (limit offset : Nat),
        get_record x
            (partsScan (ps1 ++ PartFile.readable { name := nm, content := Except.error () } :: ps2)).1
          = get_record x
            (partsScan (ps1 ++ PartFile.readable { name := nm, content := Except.ok [] } :: ps2)).1
        ∧ searchScan q limit offset
            (partsScan (ps1 ++ PartFile.readable { name := nm, content := Except.error () } :: ps2)).1
          = searchScan q limit offset
            (partsScan (ps1 ++ PartFile.readable { name := nm, content := Except.ok [] } :: ps2)).1
        ∧ searchEmailStream v
            (partsScan (ps1 ++ PartFile.readable { name := nm, content := Except.error () } :: ps2)).1
          = searchEmailStream v
            (partsScan (ps1 ++ PartFile.readable { name := nm, content := Except.ok [] } :: ps2)).1)
    ∧ (∀ (ps1 ps2 : List PartFile) (nm : String) (rs : List Record),
        partsScan ps1 = (rs, false) →
        partsScan (ps1 ++ PartFile.unopenable nm :: ps2) = (rs, true))
    ∧ (∀ ps : List Part, partsScan (ps.map PartFile.readable) = (partsRecords ps, false)) := by
  have hskip : ∀ (ps1 ps2 : List PartFile) (nm : String),
      partsScan (ps1 ++ PartFile.readable { name := nm, content := Except.error () } :: ps2)
        = partsScan (ps1 ++ PartFile.readable { name := nm, content := Except.ok [] } :: ps2) := by
    intro ps1 ps2 nm
    induction ps1 with
    | nil => simp [partsScan]
    | cons p ps ih =>
      cases p with
      | unopenable nm' => rfl
      | readable p' =>
        cases hc : p'.content with
        | error e => simp [partsScan, hc, ih]
        | ok rs => simp [partsScan, hc, ih]
  refine ⟨hskip, ?_, ?_, ?_⟩
  · intro ps1 ps2 nm x q v limit offset
    exact ⟨by rw [hskip], by rw [hskip], by rw [hskip]⟩
  · intro ps1 ps2 nm rs
    induction ps1 generalizing rs with
    | nil =>
      intro h
      have hr : rs = [] := by
        have := congrArg Prod.fst h
        simpa [partsScan] using this.symm
      rw [hr]
      rfl
    | cons p ps ih =>
      intro h
      cases p with
      | unopenable nm' =>
        rw [show partsScan (PartFile.unopenable nm' :: ps) = ([], true) from rfl] at h
        exact absurd (congrArg Prod.snd h) (by simp)
      | readable p' =>
        cases hc : p'.content with
        | error e =>
          rw [show partsScan (PartFile.readable p' :: ps) = partsScan ps from by
            simp [partsScan, hc]] at h
          have := ih rs h
          simp [partsScan, hc, this]
        | ok rs0 =>
          rw [show partsScan (PartFile.readable p' :: ps)
              = (rs0 ++ (partsScan ps).1, (partsScan ps).2) from by simp [partsScan, hc]] at h
          have h1 : rs0 ++ (partsScan ps).1 = rs := congrArg Prod.fst h
          have h2 : (partsScan ps).2 = false := congrArg Prod.snd h
          have hps : partsScan ps = ((partsScan ps).1, false) := by
            rw [← h2]
          have := ih (partsScan ps).1 hps
          simp [partsScan, hc, this, h1]
  · intro ps
    induction ps with
    | nil => rfl
    | cons p ps ih =>
      cases hc : p.content with
      | error e => simp [partsScan, partsRecords, hc, ih]
      | ok rs => simp [partsScan, partsRecords, hc, ih]

/-- Witness for the amended C7: one parsing partition followed by an unopenable
one yields exactly the first partition's records and then aborts. -/
theorem part_failure_semantics_witness :
    partsScan [PartFile.readable goodPart, PartFile.unopenable "fake_leak_part_2.json"]
      = ([sampleRec], true) :=
  part_failure_semantics.2.2.1
    [PartFile.readable goodPart] [] "fake_leak_part_2.json" [sampleRec] (by decide)

/-- C5: backend selection is a deterministic first-match decision: the indexed
store when present; else the single full-dataset file when it parses as a valid
sequence, as one batch; else the partition files sorted lexicographically by
name, skipping those whose parse fails; else the empty dataset, on which every
query signals not-found.  A malformed single file is not fatal: selection falls
through to the partition files. -/
theorem backend_selection (arts : Artifacts) :
    (∀ tbl, arts.db = some tbl → selectBackend arts = Backend.indexed tbl)
    ∧ (∀ data, arts.db = none → arts.singleJson = some (Except.ok data) →
        selectBackend arts = Backend.stream data)
    ∧ (arts.db = none →
        (arts.singleJson = none ∨ arts.singleJson = some (Except.error ())) →
        selectBackend arts = Backend.stream (partsRecords (sortParts arts.parts)))
    ∧ (arts.db = none →
        (arts.singleJson = none ∨ arts.singleJson = some (Except.error ())) →
        arts.parts = [] →
        selectBackend arts = Backend.stream []
        ∧ (∀ x, get_record x ([] : List Record) = Except.ok none)
        ∧ (∀ q limit offset, (searchScan q limit offset ([] : List Record)).1 = [])
        ∧ (∀ v, searchEmailStream v ([] : List Record) = none)) := by
  refine ⟨?_, ?_, ?_, ?_⟩
  · intro tbl h
    simp [selectBackend, h]
  · intro data hdb hsj
    simp [selectBackend, stream_records_from_parts, hdb, hsj]
  · intro hdb hsj
    rcases hsj with h | h <;> simp [selectBackend, stream_records_from_parts, hdb, h]
  · intro hdb hsj hparts
    refine ⟨?_, fun x => rfl, fun q limit offset => rfl, fun v => rfl⟩
    rcases hsj with h | h <;>
      simp [selectBackend, stream_records_from_parts, hdb, h, hparts, sortParts, partsRecords]

/-- Witness for C5: a malformed single file with no partitions selects the empty
stream backend. -/
theorem backend_selection_witness :
    selectBackend { db := none, singleJson := some (Except.error ()), parts := [] }
      = Backend.stream [] :=
  ((backend_selection
      { db := none, singleJson := some (Except.error ()), parts := [] }).2.2.2
    rfl (Or.inr rfl) rfl).1

/-! ### Claim C6 -/

/-- C6: search_by_aadhar validates its inputs before either backend is accessed:
a non-digit query, an unparsable limit or offset, a limit outside [1,1000] or a
negative offset each produce a fixed client-error response that does not depend
on the backend (so no backend access can be observed); absent parameters default
to limit=10 and offset=0; and on valid inputs the stream backend is queried with
the validated limit and offset. -/
theorem aadhar_input_validation :
    (∀ q limitP offsetP b, pyIsDigit q = false →
        search_by_aadhar q limitP offsetP b
          = Resp.badRequest "Aadhaar query must be digits only")
    ∧ (∀ q limitP offsetP b, pyIsDigit q = true →
        (parsedLimit limitP = none ∨ parsedOffset offsetP = none) →
        search_by_aadhar q limitP offsetP b
          = Resp.badRequest "limit and offset must be integers")
    ∧ (∀ q limitP offsetP b limit offset, pyIsDigit q = true →
        parsedLimit limitP = some limit → parsedOffset offsetP = some offset →
        (limit < 1 ∨ 1000 < limit) →
        search_by_aadhar q limitP offsetP b
          = Resp.badRequest "limit must be between 1 and 1000")
    ∧ (∀ q limitP offsetP b limit offset, pyIsDigit q = true →
        parsedLimit limitP = some limit → parsedOffset offsetP = some offset →
        1 ≤ limit → limit ≤ 1000 → offset < 0 →
        search_by_aadhar q limitP offsetP b
          = Resp.badRequest "offset must be >= 0")
    ∧ (∀ q b, search_by_aadhar q none none b = search_by_aadhar q (some "10") (some "0") b)
    ∧ (∀ q limitP offsetP recs limit offset, pyIsDigit q = true →
        parsedLimit limitP = some limit → parsedOffset offsetP = some offset →
        1 ≤ limit → limit ≤ 1000 → 0 ≤ offset →
        search_by_aadhar q limitP offsetP (Backend.stream recs)
          = (if ((searchScan q limit.toNat offset.toNat recs).1).isEmpty
             then Resp.notFound "No records found for given Aadhaar"
             else Resp.okList ((searchScan q limit.toNat offset.toNat recs).1))) := by
  refine ⟨?_, ?_, ?_, ?_, ?_, ?_⟩
  · intro q limitP offsetP b hq
    simp [search_by_aadhar, hq]
  · intro q limitP offsetP b hq hbad
    rcases hbad with h | h
    · simp [search_by_aadhar, hq, h]
    · simp [search_by_aadhar, hq, h]
  · intro q limitP offsetP b limit offset hq hl ho hrange
    simp only [search_by_aadhar, hq, Bool.true_eq_false, if_false, hl, ho]
    rw [if_pos hrange]
  · intro q limitP offsetP b limit offset hq hl ho hlo hhi hneg
    simp only [search_by_aadhar, hq, Bool.true_eq_false, if_false, hl, ho]
    rw [if_neg (by omega), if_pos hneg]
  · intro q b
    have e1 : pyParseInt "10" = some 10 := by decide
    have e2 : pyParseInt "0" = some 0 := by decide
    simp only [search_by_aadhar, parsedLimit, parsedOffset, e1, e2]
  · intro q limitP offsetP recs limit offset hq hl ho hlo hhi hnn
    simp only [search_by_aadhar, hq, Bool.true_eq_false, if_false, hl, ho]
    rw [if_neg (by omega), if_neg (by omega)]

/-- Witness for C6: limit=0 is rejected before any backend access. -/
theorem aadhar_input_validation_witness :
    search_by_aadhar "123" (some "0") none (Backend.stream [])
      = Resp.badRequest "limit must be between 1 and 1000" :=
  aadhar_input_validation.2.2.1 "123" (some "0") none (Backend.stream []) 0 0
    (by decide) (by decide) (by decide) (by decide)

/-! ### Claims C8 and C3 -/

/-- find? is the head of the filtered list. -/
lemma find?_eq_head?_filter {α : Type} (p : α → Bool) :
    ∀ l : List α, l.find? p = (l.filter p).head? := by
  intro l
  induction l with
  | nil => rfl
  | cons a as ih =>
    by_cases h : p a = true
    · rw [List.find?_cons_of_pos as h, List.filter_cons_of_pos h]
      rfl
    · rw [List.find?_cons_of_neg as h, List.filter_cons_of_neg
        (by revert h; cases p a <;> simp), ih]

/-- find? only depends on the predicate's values on the list. -/
lemma find?_congr_mem {α : Type} {p p' : α → Bool} :
    ∀ {l : List α}, (∀ a ∈ l, p a = p' a) → l.find? p = l.find? p' := by
  intro l
  induction l with
  | nil => intro _; rfl
  | cons a as ih =>
    intro h
    have ha := h a (by simp)
    by_cases hp : p a = true
    · rw [List.find?_cons_of_pos as hp, List.find?_cons_of_pos as (ha ▸ hp)]
    · have hp' : ¬ p' a = true := by rw [← ha]; exact hp
      rw [List.find?_cons_of_neg as hp, List.find?_cons_of_neg as hp',
        ih (fun a' ha' => h a' (by simp [ha']))]

/-- head? is some exactly on nonempty lists. -/
lemma head?_isSome_iff {α : Type} (l : List α) : l.head?.isSome = true ↔ l ≠ [] := by
  cases l <;> simp

/-- insertionSort returns the empty list only on the empty list. -/
lemma insertionSort_eq_nil_iff {r : Record → Record → Prop} [DecidableRel r]
    (l : List Record) : List.insertionSort r l = [] ↔ l = [] := by
  constructor
  · intro h
    have hl := List.length_insertionSort r l
    rw [h] at hl
    exact (List.length_eq_zero).mp hl.symm
  · intro h; rw [h]; rfl

/-- A filtered list is nonempty exactly when some member satisfies the predicate. -/
lemma filter_ne_nil_iff {α : Type} (p : α → Bool) (l : List α) :
    l.filter p ≠ [] ↔ ∃ a ∈ l, p a = true := by
  rw [ne_eq, List.filter_eq_nil_iff]
  simp

/-- The email predicate is the case-folded equality of the spec. -/
lemma emailMatches_iff {v : String} {r : Record} :
    emailMatches v r = true ↔ pyLower (pyGetStr r.email) = pyLower v := by
  simp [emailMatches]

/-- C8: GetByFieldExact on the email field matches by case-insensitive string
equality on both backends: a record is found exactly when some record's
case-folded email equals the case-folded query, and concretely the query
"A@B.com" finds the record stored with email "a@b.com" on either backend. -/
theorem email_case_insensitive :
    (∀ v recs, (searchEmailStream v recs).isSome = true
        ↔ ∃ r ∈ recs, pyLower (pyGetStr r.email) = pyLower v)
    ∧ (∀ v tbl, (dbGetByEmail v tbl).isSome = true
        ↔ ∃ r ∈ tbl, pyLower (pyGetStr r.email) = pyLower v)
    ∧ searchEmailStream "A@B.com"
        [{ id := none, aadhar_card := none, email := some (Value.vstr "a@b.com") }]
      = some { id := none, aadhar_card := none, email := some (Value.vstr "a@b.com") }
    ∧ dbGetByEmail "A@B.com"
        [{ id := none, aadhar_card := none, email := some (Value.vstr "a@b.com") }]
      = some { id := none, aadhar_card := none, email := some (Value.vstr "a@b.com") } := by
  refine ⟨?_, ?_, by decide, by decide⟩
  · intro v recs
    rw [searchEmailStream, List.find?_isSome]
    constructor
    · rintro ⟨r, hm, hp⟩
      exact ⟨r, hm, emailMatches_iff.mp hp⟩
    · rintro ⟨r, hm, hp⟩
      exact ⟨r, hm, emailMatches_iff.mpr hp⟩
  · intro v tbl
    rw [dbGetByEmail, head?_isSome_iff, ne_eq, insertionSort_eq_nil_iff, ← ne_eq,
      filter_ne_nil_iff]
    constructor
    · rintro ⟨r, hm, hp⟩
      exact ⟨r, hm, emailMatches_iff.mp hp⟩
    · rintro ⟨r, hm, hp⟩
      exact ⟨r, hm, emailMatches_iff.mpr hp⟩

/-- After filtering, a strictly id-sorted list is sorted for the store's order. -/
lemma sorted_filter_idLe {l : List Record}
    (hsort : l.Pairwise (fun a b => recIdInt a < recIdInt b)) (p : Record → Bool) :
    List.Sorted idLe (l.filter p) := by
  have hs := hsort.sublist (@List.filter_sublist Record p l)
  exact hs.imp (fun h => le_of_lt h)

/-- C3 counterexample: a dataset whose canonical scan order disagrees with the id
order gives different result sets on the two backends for the same
SearchByFieldPartial inputs (limit 1, offset 0), refuting backend equivalence
for arbitrary equivalent datasets. -/
theorem backend_equiv_counterexample :
    dbSearchByAadhar "5" 1 0
        [{ id := some (Value.vint 2), aadhar_card := some (Value.vstr "5"), email := none },
         { id := some (Value.vint 1), aadhar_card := some (Value.vstr "5"), email := none }]
      ≠ (searchScan "5" 1 0
        [{ id := some (Value.vint 2), aadhar_card := some (Value.vstr "5"), email := none },
         { id := some (Value.vint 1), aadhar_card := some (Value.vstr "5"), email := none }]).1 := by
  decide

/-- C3 amended: when every record's id field is an integer and the canonical scan
order lists the records in strictly ascending id order (so the batch-stream form
realizes the indexed store's native ordering), each of the three queries returns
the same records from either backend for the same inputs. -/
theorem backend_equiv_of_id_sorted (q : String) (x : Nat) (v : String)
    (limit offset : Nat) (l : List Record)
    (hids : ∀ r ∈ l, isIntId r = true)
    (hsort : l.Pairwise (fun a b => recIdInt a < recIdInt b))
    (hlim : 1 ≤ limit) :
    dbSearchByAadhar q limit offset l = (searchScan q limit offset l).1
    ∧ Except.ok (dbGetById (x : Int) l) = get_record (x : Int) l
    ∧ dbGetByEmail v l = searchEmailStream v l := by
  refine ⟨?_, ?_, ?_⟩
  · obtain ⟨m1, -, -, -, -⟩ :=
      searchGo_master q limit offset l 0 []
        (fun _ => rfl) (by intro h; simp; omega) (by simp; omega)
    have e : (searchScan q limit offset l).1
        = ((l.filter (aadharMatches q)).drop offset).take limit := by
      simpa [searchScan] using m1
    rw [e, dbSearchByAadhar, (sorted_filter_idLe hsort _).insertionSort_eq]
  · rw [get_record_eq_find (x : Int) l hids, dbGetById,
      (sorted_filter_idLe hsort _).insertionSort_eq, ← find?_eq_head?_filter]
    refine congrArg Except.ok (find?_congr_mem ?_)
    intro r hr
    have := hids r hr
    match hid : r.id with
    | some (Value.vint n) =>
      rw [decide_eq_decide]
      simp [recIdInt, hid]
    | none => rw [isIntId, hid] at this; simp at this
    | some (Value.vstr s) => rw [isIntId, hid] at this; simp at this
  · rw [dbGetByEmail, (sorted_filter_idLe hsort _).insertionSort_eq,
      ← find?_eq_head?_filter, searchEmailStream]

/-- Witness for the amended C3 at a concrete id-sorted dataset. -/
theorem backend_equiv_of_id_sorted_witness :
    dbSearchByAadhar "5" 1 0
        [{ id := some (Value.vint 1), aadhar_card := some (Value.vstr "5"), email := none },
         { id := some (Value.vint 2), aadhar_card := some (Value.vstr "7"), email := none }]
      = (searchScan "5" 1 0
        [{ id := some (Value.vint 1), aadhar_card := some (Value.vstr "5"), email := none },
         { id := some (Value.vint 2), aadhar_card := some (Value.vstr "7"), email := none }]).1
    ∧ Except.ok (dbGetById ((1 : Nat) : Int)
        [{ id := some (Value.vint 1), aadhar_card := some (Value.vstr "5"), email := none },
         { id := some (Value.vint 2), aadhar_card := some (Value.vstr "7"), email := none }])
      = get_record ((1 : Nat) : Int)
        [{ id := some (Value.vint 1), aadhar_card := some (Value.vstr "5"), email := none },
         { id := some (Value.vint 2), aadhar_card := some (Value.vstr "7"), email := none }]
    ∧ dbGetByEmail "a"
        [{ id := some (Value.vint 1), aadhar_card := some (Value.vstr "5"), email := none },
         { id := some (Value.vint 2), aadhar_card := some (Value.vstr "7"), email := none }]
      = searchEmailStream "a"
        [{ id := some (Value.vint 1), aadhar_card := some (Value.vstr "5"), email := none },
         { id := some (Value.vint 2), aadhar_card := some (Value.vstr "7"), email := none }] :=
  backend_equiv_of_id_sorted "5" 1 "a" 1 0 _ (by decide) (by decide) (by decide)

end LeakApi
